import Mathlib

/-!
Verification of the SEE (Sandboxed Execution Environment) core against its
specification.  The definitions below are shallow embeddings of the Python
sources: `see/hooks.py`, `see/observer.py`, `see/context/context.py`,
`see/context/resources/network.py`, `see/context/resources/qemu.py` and
`see/image_providers/helpers.py`.  Python dictionaries are modelled as
association lists with unique keys, machine integers as `Nat` with explicit
reduction modulo 2^32 where the source (MD5) wraps, and exceptions as
`Except` / `Option` results.
-/

namespace See

/-! ## Association-list dictionaries (Python `dict` / `defaultdict`) -/

/-- Python `d[k]` lookup returning the first binding of `k`, `none` when the
key is absent.  Models `dict.get` / `KeyError`-free access on dictionaries,
whose keys are unique. -/
def dictGet {β : Type} : List (String × β) → String → Option β
  | [], _ => none
  | (k, v) :: t, key => if k = key then some v else dictGet t key

/-- Python `d[k] = v`: replace the binding of `k` in place, appending a new
binding when the key is absent (insertion-order semantics of `dict`). -/
def dictSet {β : Type} : List (String × β) → String → β → List (String × β)
  | [], key, v => [(key, v)]
  | (k, w) :: t, key, v =>
      if k = key then (key, v) :: t else (k, w) :: dictSet t key v

/-- Python `base.update(upd)`: every binding of `upd` is written into `base`,
overwriting colliding keys. -/
def dict_update (base upd : List (String × String)) : List (String × String) :=
  upd.foldl (fun acc kv => dictSet acc kv.1 kv.2) base

/-- Python defaultdict(list) access: a missing key reads as the empty list. -/
def dictGetD (m : List (String × List Nat)) (k : String) : List Nat :=
  (dictGet m k).getD []

/-! ## Hook manager (`see/hooks.py`) -/

/-- One entry of the `hooks` list of the hook-manager configuration:
`hook.get('configuration', {})` defaults to the empty dict and
`hook['name']` raises `KeyError` when absent (hence the `Option`). -/
structure HookEntry where
  name : Option String
  configuration : List (String × String)
deriving Repr, DecidableEq

/-- The hook-manager configuration: the shared `configuration` dict
(`self.configuration.get('configuration', {})`) and the `hooks` list. -/
structure HookManagerConfig where
  configuration : List (String × String)
  hooks : List HookEntry
deriving Repr, DecidableEq

/-- The `HookParameters` namedtuple passed to every hook constructor. -/
structure HookParameters (Ctx : Type) where
  identifier : String
  configuration : List (String × String)
  context : Ctx
deriving Repr, DecidableEq

/-- Translation of `HookManager.load_hooks`: for each entry the entry configuration is taken
and `config.update(shared)` is applied to it, then the hook named by the entry
is constructed with `HookParameters(identifier, config, context)`.  Entries
without a name are skipped (fail-soft on `KeyError`).  Class lookup and
constructor failures, which also skip fail-soft, are abstracted away: the
result is the list of (hook name, constructor parameters) actually produced. -/
def load_hooks {Ctx : Type} (cfg : HookManagerConfig) (identifier : String)
    (context : Ctx) : List (String × HookParameters Ctx) :=
  cfg.hooks.filterMap fun hook =>
    match hook.name with
    | some n =>
        some (n, HookParameters.mk identifier
                   (dict_update hook.configuration cfg.configuration) context)
    | none => none

/-! ## Event bus (`see/observer.py`)

`see/events.py` is not among the sources; only `see/test/events_test.py` is.
Modelled from the spec: an `Event` is "an immutable record carrying a name
(string, acts as the subscription key), a source tag identifying the
emitter's component class, and an open set of named payload fields", and
"equality and hashing of an event for delivery purposes is by name" (the test
shows `Event` is a `str` subclass whose string value is the name, so indexing
the handler dictionaries with an `Event` finds the bindings made under the
plain name string).  Handlers are identified by natural numbers. -/
structure Event where
  name : String
  source : String
  payload : List (String × String)
deriving Repr, DecidableEq

/-- Translation of `prime_event`: a string argument is turned into a fresh `Event` carrying
the emitter as source and the keyword payload; an `Event` argument is
returned unchanged (the `isinstance` test). -/
def prime_event (event : Sum String Event) (source : String)
    (kwargs : List (String × String)) : Event :=
  match event with
  | .inl name => ⟨name, source, kwargs⟩
  | .inr e => e

/-- The `Handlers` named tuple of an `Observable`: the two
`defaultdict(list)` maps.  The trigger mutex is not modelled: dispatch is
embedded as a sequential computation (the lock is re-entrant and the claims
below concern a single thread of control). -/
structure Handlers where
  sync_handlers : List (String × List Nat)
  async_handlers : List (String × List Nat)
deriving Repr, DecidableEq

/-- Translation of `Observable.subscribe`: append the handler to the synchronous list of the
event. -/
def subscribe (st : Handlers) (event : String) (h : Nat) : Handlers :=
  { st with sync_handlers :=
      dictSet st.sync_handlers event (dictGetD st.sync_handlers event ++ [h]) }

/-- Translation of `Observable.subscribe_async`: append the handler to the asynchronous list
of the event. -/
def subscribe_async (st : Handlers) (event : String) (h : Nat) : Handlers :=
  { st with async_handlers :=
      dictSet st.async_handlers event (dictGetD st.async_handlers event ++ [h]) }

/-- Python `list.remove(x)`: delete the first occurrence, `none` when `x` is
absent (where the source raises `ValueError`). -/
def removeFirst (x : Nat) : List Nat → Option (List Nat)
  | [] => none
  | y :: t => if y = x then some t else (removeFirst x t).map (fun r => y :: r)

inductive ObsError where
  | notSubscribed
deriving Repr, DecidableEq

instance exceptDecEq {ε α : Type} [DecidableEq ε] [DecidableEq α] :
    DecidableEq (Except ε α) := fun x y =>
  match x, y with
  | .ok a, .ok b => if h : a = b then isTrue (by rw [h]) else isFalse (by simp [h])
  | .ok _, .error _ => isFalse (by simp)
  | .error _, .ok _ => isFalse (by simp)
  | .error a, .error b =>
      if h : a = b then isTrue (by rw [h]) else isFalse (by simp [h])

/-- Translation of `Observable.unsubscribe`, translating the `try/except/else` structure:
try to remove from the synchronous list; on `ValueError` remove from the
asynchronous list (raising `notSubscribed` if that also fails); when the
synchronous removal succeeded, additionally try to remove from the
asynchronous list, swallowing a failure. -/
def unsubscribe (st : Handlers) (event : String) (h : Nat) :
    Except ObsError Handlers :=
  match removeFirst h (dictGetD st.sync_handlers event) with
  | some l =>
      match removeFirst h (dictGetD st.async_handlers event) with
      | some l2 =>
          Except.ok ⟨dictSet st.sync_handlers event l,
            dictSet st.async_handlers event l2⟩
      | none => Except.ok ⟨dictSet st.sync_handlers event l, st.async_handlers⟩
  | none =>
      match removeFirst h (dictGetD st.async_handlers event) with
      | some l2 =>
          Except.ok { st with
            async_handlers := dictSet st.async_handlers event l2 }
      | none => Except.error ObsError.notSubscribed

/-- Full bus state: the handler maps plus an observation log of flags set by
handlers (modelling handler side effects visible to a test). -/
structure Bus where
  handlers : Handlers
  flags : List Nat
deriving Repr, DecidableEq

/-- The operations a handler body may perform on the bus. -/
inductive BusOp where
  | sub (event : String) (h : Nat)
  | subAsync (event : String) (h : Nat)
  | unsub (event : String) (h : Nat)
  | setFlag (f : Nat)
deriving Repr, DecidableEq

/-- Run a handler body: its operations in order.  An `unsubscribe` of an
unknown handler raises inside the body: the remaining operations are skipped
and the raise is reported (second component). -/
def runOps : Bus → List BusOp → Bus × Bool
  | st, [] => (st, false)
  | st, op :: rest =>
    match op with
    | .sub ev h => runOps { st with handlers := subscribe st.handlers ev h } rest
    | .subAsync ev h =>
        runOps { st with handlers := subscribe_async st.handlers ev h } rest
    | .unsub ev h =>
        match unsubscribe st.handlers ev h with
        | .ok hs => runOps { st with handlers := hs } rest
        | .error _ => (st, true)
    | .setFlag f => runOps { st with flags := st.flags ++ [f] } rest

/-- A handler behaviour: given the delivered event, the bus operations the
handler performs and whether it finally raises an exception. -/
def Behavior : Type := Nat → Event → List BusOp × Bool

/-- The `synchronous` delivery wrapper: the handler is invoked and any
exception it raises is caught and logged — the effects performed before the
raise are kept, nothing propagates to the caller. -/
def synchronous (beh : Behavior) (h : Nat) (event : Event) (st : Bus) : Bus :=
  (runOps st (beh h event).1).1

/-- The synchronous dispatch loop of `Observable.trigger`: Python's
`for handler in self._handlers.sync_handlers[event]` iterates the *live*
list by position, so mutations performed by handlers are visible to the
in-flight loop.  `fuel` bounds the number of iterations modelled (any value
at least the number of iterations the Python loop performs gives the Python
behaviour; the loop itself stops as soon as the index reaches the current
length).  Returns the final bus and the handlers invoked, in order. -/
def syncLoop (beh : Behavior) (event : Event) :
    Nat → Bus → Nat → List Nat → Bus × List Nat
  | 0, st, _, acc => (st, acc)
  | fuel + 1, st, i, acc =>
      match (dictGetD st.handlers.sync_handlers event.name)[i]? with
      | some hd =>
          syncLoop beh event fuel (synchronous beh hd event st)
            (i + 1) (acc ++ [hd])
      | none => (st, acc)

/-- Result of a `trigger` call: the bus after dispatch, the asynchronous
handlers scheduled on their own threads (they are started, not executed,
inside `trigger`), the synchronous handlers invoked inline in order, and the
event that was delivered. -/
structure TriggerResult where
  bus : Bus
  scheduled : List Nat
  invoked : List Nat
  event : Event
deriving Repr, DecidableEq

/-- Translation of `Observable.trigger`: prime the event, start a thread for each
asynchronous handler of the event, then invoke each synchronous handler
inline through the live-list loop. -/
def trigger (beh : Behavior) (fuel : Nat) (st : Bus) (source : String)
    (event : Sum String Event) (kwargs : List (String × String)) :
    TriggerResult :=
  let e := prime_event event source kwargs
  let scheduled := dictGetD st.handlers.async_handlers e.name
  let r := syncLoop beh e fuel st 0 []
  ⟨r.1, scheduled, r.2, e⟩

/-- Holds when a bus operation writes the synchronous handler list of the
given event name. -/
def opTouchesSync (name : String) : BusOp → Bool
  | .sub ev _ => ev == name
  | .unsub ev _ => ev == name
  | _ => false

/-- Holds when a handler body only sets flags (performs no subscription
changes at all). -/
def flagOnly (ops : List BusOp) : Bool :=
  ops.all fun op => match op with
    | .setFlag _ => true
    | _ => false

/-! ## Context state machine (`see/context/context.py`) -/

/-- The libvirt domain states (the module constants `NOSTATE` .. `SUSPENDED`,
values 0–7 of `domain.state()[0]`). -/
inductive DomState where
  | nostate
  | running
  | blocked
  | paused
  | shutdownState
  | shutoff
  | crashed
  | suspended
deriving Repr, DecidableEq

/-- A value of the `STATES_MAP` dictionary.  The source maps `RUNNING` and
`PAUSED` to tuples but `SHUTDOWN`, `SHUTOFF`, `CRASHED` and `SUSPENDED` to
plain strings (`('poweron')` is not a 1-tuple), so the Python `in` test is
tuple membership for the former and substring search for the latter. -/
inductive TupOrStr where
  | tup (l : List String)
  | str (s : String)
deriving Repr, DecidableEq

/-- The `STATES_MAP` module constant, verbatim. -/
def STATES_MAP : DomState → TupOrStr
  | .nostate => .tup []
  | .running => .tup ["pause", "poweroff", "forced_poweroff", "restart", "shutdown"]
  | .blocked => .tup []
  | .paused => .tup ["resume", "forced_poweroff"]
  | .shutdownState => .str "poweron"
  | .shutoff => .str "poweron"
  | .crashed => .str "poweron"
  | .suspended => .str "resume"

/-- Whether `needle` is an initial segment of `hay` (character lists). -/
def listStartsWith : List Char → List Char → Bool
  | [], _ => true
  | _ :: _, [] => false
  | a :: as, b :: bs => a == b && listStartsWith as bs

/-- Whether `needle` occurs contiguously inside `hay` (character lists): the Python
substring test `needle in hay`. -/
def listHasSub (needle : List Char) : List Char → Bool
  | [] => needle.isEmpty
  | b :: bs => listStartsWith needle (b :: bs) || listHasSub needle bs

/-- Python `item in container` for a `STATES_MAP` value: tuple membership or
substring search depending on the stored value. -/
def pyIn (item : String) : TupOrStr → Bool
  | .tup l => l.contains item
  | .str s => listHasSub item.toList s.toList

/-- Translation of `SeeContext._assert_transition` as a predicate: the command is allowed in
the given state (the source raises `RuntimeError` when it is not). -/
def assert_transition (verb : String) (st : DomState) : Bool :=
  pyIn verb (STATES_MAP st)

/-- One observable step of a lifecycle command: an event trigger or the
back-end operation. -/
inductive Step where
  | ev (name : String) (payload : List (String × String))
  | backendCall
deriving Repr, DecidableEq

/-- The errors a lifecycle verb can surface (`RuntimeError`s of the source,
distinguished by their message). -/
inductive CtxError where
  | invalidTransition
  | operationFailed
  | shutdownTimeout
deriving Repr, DecidableEq

/-- Translation of `SeeContext._command`: assert the transition against `STATES_MAP` (on
failure nothing is triggered and the back-end is not invoked), trigger
`pre_<verb>` with the caller payload, invoke the back-end (`backendOk` is
whether it succeeds; a `libvirt.libvirtError` is re-raised as the
operation-failed `RuntimeError`), and only then trigger `post_<verb>` with
the same payload.  The result is the ordered trace of steps plus the error
raised, if any. -/
def run_command (verb : String) (st : DomState) (backendOk : Bool)
    (payload : List (String × String)) : List Step × Option CtxError :=
  if assert_transition verb st then
    if backendOk then
      ([Step.ev ("pre_" ++ verb) payload, Step.backendCall,
        Step.ev ("post_" ++ verb) payload], none)
    else
      ([Step.ev ("pre_" ++ verb) payload, Step.backendCall],
       some CtxError.operationFailed)
  else ([], some CtxError.invalidTransition)

/-- The polling loop of `SeeContext._wait_for_shutdown` for a non-null
timeout: `for _ in range(timeout * 10)` reads `domain.state()[0]` once per
iteration and breaks on `SHUTOFF`; the `for`/`else` clause raises the
shutdown-timeout error when the loop completes without breaking.  `obs j` is
the state returned by the `j`-th call to `domain.state()` of the whole
`shutdown` invocation, `i` the index of the next call, `fuel` the remaining
iterations.  Returns whether `SHUTOFF` was observed. -/
def poll_shutoff (obs : Nat → DomState) : Nat → Nat → Bool
  | 0, _ => false
  | fuel + 1, i =>
      if obs i = DomState.shutoff then true else poll_shutoff obs fuel (i + 1)

/-- Translation of `SeeContext.shutdown` with a non-null `timeout` (the `timeout=None`
branch polls indefinitely and has no terminating denotation; no claim needs
it): assert the transition using the state observation `obs 0`, trigger
`pre_shutdown`, issue the ACPI shutdown (`backendOk`; a libvirt failure is
raised as operation-failed), poll observations `obs 1`, `obs 2`, … for at
most `timeout * 10` iterations, and trigger `post_shutdown` only when
`SHUTOFF` was observed, otherwise raise the shutdown-timeout error. -/
def shutdown_with_timeout (obs : Nat → DomState) (backendOk : Bool)
    (timeout : Nat) (payload : List (String × String)) :
    List Step × Option CtxError :=
  if assert_transition "shutdown" (obs 0) then
    if backendOk then
      if poll_shutoff obs (timeout * 10) 1 then
        ([Step.ev "pre_shutdown" payload, Step.backendCall,
          Step.ev "post_shutdown" payload], none)
      else
        ([Step.ev "pre_shutdown" payload, Step.backendCall],
         some CtxError.shutdownTimeout)
    else
      ([Step.ev "pre_shutdown" payload, Step.backendCall],
       some CtxError.operationFailed)
  else ([], some CtxError.invalidTransition)

/-! ## Dynamic network creation (`see/context/resources/network.py`) -/

/-- The module constant `MAX_ATTEMPTS`. -/
def MAX_ATTEMPTS : Nat := 10

inductive NetError where
  | addressExhausted
deriving Repr, DecidableEq

/-- The retry loop of `network.create`: `counter = itertools.count()` yields
0, 1, 2, … — one value per *failed* `networkCreateXML` call — and the loop
raises only once the yielded value exceeds `MAX_ATTEMPTS`.  `ok j` is whether
the `j`-th creation attempt (0-based) succeeds, `i` the index of the next
attempt, `c` the next counter value.  Returns the index of the successful
attempt. -/
def createLoop (ok : Nat → Bool) (i : Nat) (c : Nat) : Except NetError Nat :=
  if ok i then Except.ok i
  else if c > MAX_ATTEMPTS then Except.error NetError.addressExhausted
  else createLoop ok (i + 1) (c + 1)
termination_by MAX_ATTEMPTS + 1 - c
decreasing_by simp_wf; omega

/-- Translation of `network.create`, abstracted over the success of the individual
`networkCreateXML` attempts (each failure being the libvirt race of the
spec). -/
def network_create (ok : Nat → Bool) : Except NetError Nat :=
  createLoop ok 0 0

/-! ## QEMU resource allocation (`see/context/context.py`,
`see/context/resources/qemu.py`) -/

/-- The configuration facts `QEMUResources` branches on: whether `network`
is a key of the configuration and whether `clone` is a key of its `disk`
entry. -/
structure QCfg where
  hasNetwork : Bool
  hasClone : Bool
deriving Repr, DecidableEq

/-- The sequential acquisition steps of `QEMUResources.allocate`, in source
order. -/
inductive AllocStep where
  | hyperOpen
  | poolRetrieve
  | netCreate
  | diskRetrieve
  | poolRefresh
  | domainCreate
  | netLookup
deriving Repr, DecidableEq

/-- The handle fields of a `QEMUResources` object: `true` when the handle is
set (not `None`). -/
structure QRes where
  hypervisor : Bool
  domain : Bool
  network : Bool
  storage_pool : Bool
deriving Repr, DecidableEq

def emptyRes : QRes := ⟨false, false, false, false⟩

/-- Translation of `QEMUResources.allocate`: open the hypervisor connection, retrieve the
storage pool (`pool_create` when cloning — always a pool — else
`pool_lookup`, which catches `libvirtError` and may legitimately return
`None`: `poolFound`), create the network only when configured, resolve the
disk path, refresh the pool when one is present, create the domain, and
finally, when no network was configured, look the network up from the domain
(`netFound` is whether that lookup yields one).  `ok s` is whether step `s`
raises no exception.  On an exception the handles assigned so far are kept
and the step is reported; the caller deallocates. -/
def allocate (cfg : QCfg) (ok : AllocStep → Bool) (poolFound netFound : Bool) :
    QRes × Option AllocStep :=
  if !ok AllocStep.hyperOpen then (emptyRes, some AllocStep.hyperOpen) else
  let r1 : QRes := { emptyRes with hypervisor := true }
  if !ok AllocStep.poolRetrieve then (r1, some AllocStep.poolRetrieve) else
  let poolVal := if cfg.hasClone then true else poolFound
  let r2 := { r1 with storage_pool := poolVal }
  if cfg.hasNetwork && !ok AllocStep.netCreate then
    (r2, some AllocStep.netCreate) else
  let r3 := { r2 with network := cfg.hasNetwork }
  if !ok AllocStep.diskRetrieve then (r3, some AllocStep.diskRetrieve) else
  if poolVal && !ok AllocStep.poolRefresh then
    (r3, some AllocStep.poolRefresh) else
  if !ok AllocStep.domainCreate then (r3, some AllocStep.domainCreate) else
  let r4 := { r3 with domain := true }
  if !cfg.hasNetwork && !ok AllocStep.netLookup then
    (r4, some AllocStep.netLookup) else
  (if cfg.hasNetwork then r4 else { r4 with network := netFound }, none)

/-- The release actions of `QEMUResources.deallocate`, in source order. -/
inductive RelStep where
  | domainRelease
  | networkRelease
  | poolRelease
  | hypervisorRelease
deriving Repr, DecidableEq

/-- Translation of `QEMUResources.deallocate`: delete the domain when set, destroy the
network when set *and* the configuration created it, delete the storage pool
when set *and* it was created for a clone, close the hypervisor connection
when open.  Every action is individually wrapped in `try/except` (and the
helpers guard internally), so `relOk`, the success of each action, never
stops the sweep: the result lists every attempted action paired with its
outcome. -/
def deallocate (cfg : QCfg) (r : QRes) (relOk : RelStep → Bool) :
    List (RelStep × Bool) :=
  (if r.domain then [(RelStep.domainRelease, relOk RelStep.domainRelease)]
   else []) ++
  (if r.network && cfg.hasNetwork then
    [(RelStep.networkRelease, relOk RelStep.networkRelease)] else []) ++
  (if r.storage_pool && cfg.hasClone then
    [(RelStep.poolRelease, relOk RelStep.poolRelease)] else []) ++
  (if r.hypervisor then
    [(RelStep.hypervisorRelease, relOk RelStep.hypervisorRelease)] else [])

/-- Translation of `QEMUContextFactory.__call__`: build the resources and `allocate`; when
any step raises, `deallocate` runs on the partial resources and the original
exception (`err` applied to the failing step) is re-raised unchanged.  The
first component is the deallocation trace (empty on success). -/
def qemu_factory_call {E : Type} (cfg : QCfg) (ok : AllocStep → Bool)
    (poolFound netFound : Bool) (err : AllocStep → E)
    (relOk : RelStep → Bool) : List (RelStep × Bool) × Except E QRes :=
  match allocate cfg ok poolFound netFound with
  | (r, none) => ([], Except.ok r)
  | (r, some s) => (deallocate cfg r relOk, Except.error (err s))

/-! ## MD5 and ETag verification (`see/image_providers/helpers.py`)

The source calls `hashlib.md5`, which is not part of this repository; it is
embedded here as the RFC 1321 MD5 function itself, over byte lists
(each byte a `Nat` below 256), with 32-bit words as `Nat` reduced modulo
2^32. -/

/-- Split a list into consecutive chunks of `n` elements (the last chunk may
be shorter); the empty list yields no chunks, matching the `f.read` loop of
the source.  The first argument is recursion fuel, taken as the list length
by `chunksOf`. -/
def chunksOfAux {α : Type} (n : Nat) : Nat → List α → List (List α)
  | 0, _ => []
  | _, [] => []
  | fuel + 1, l => l.take n :: chunksOfAux n fuel (l.drop n)

def chunksOf {α : Type} (n : Nat) (l : List α) : List (List α) :=
  chunksOfAux n l.length l

/-- Bitwise complement on 32-bit words. -/
def w32not (x : Nat) : Nat := 4294967295 - x

/-- Left rotation of a 32-bit word by `s` places (`0 ≤ s < 32`). -/
def rotl32 (x s : Nat) : Nat := x * 2 ^ s % 4294967296 + x / 2 ^ (32 - s)

/-- The 64 MD5 sine-derived constants `K`. -/
def md5K : List Nat :=
  [0xd76aa478, 0xe8c7b756, 0x242070db, 0xc1bdceee,
   0xf57c0faf, 0x4787c62a, 0xa8304613, 0xfd469501,
   0x698098d8, 0x8b44f7af, 0xffff5bb1, 0x895cd7be,
   0x6b901122, 0xfd987193, 0xa679438e, 0x49b40821,
   0xf61e2562, 0xc040b340, 0x265e5a51, 0xe9b6c7aa,
   0xd62f105d, 0x02441453, 0xd8a1e681, 0xe7d3fbc8,
   0x21e1cde6, 0xc33707d6, 0xf4d50d87, 0x455a14ed,
   0xa9e3e905, 0xfcefa3f8, 0x676f02d9, 0x8d2a4c8a,
   0xfffa3942, 0x8771f681, 0x6d9d6122, 0xfde5380c,
   0xa4beea44, 0x4bdecfa9, 0xf6bb4b60, 0xbebfbc70,
   0x289b7ec6, 0xeaa127fa, 0xd4ef3085, 0x04881d05,
   0xd9d4d039, 0xe6db99e5, 0x1fa27cf8, 0xc4ac5665,
   0xf4292244, 0x432aff97, 0xab9423a7, 0xfc93a039,
   0x655b59c3, 0x8f0ccc92, 0xffeff47d, 0x85845dd1,
   0x6fa87e4f, 0xfe2ce6e0, 0xa3014314, 0x4e0811a1,
   0xf7537e82, 0xbd3af235, 0x2ad7d2bb, 0xeb86d391]

/-- The 64 per-round left-rotation amounts `S`. -/
def md5S : List Nat :=
  [7, 12, 17, 22, 7, 12, 17, 22, 7, 12, 17, 22, 7, 12, 17, 22,
   5, 9, 14, 20, 5, 9, 14, 20, 5, 9, 14, 20, 5, 9, 14, 20,
   4, 11, 16, 23, 4, 11, 16, 23, 4, 11, 16, 23, 4, 11, 16, 23,
   6, 10, 15, 21, 6, 10, 15, 21, 6, 10, 15, 21, 6, 10, 15, 21]

/-- Round function and message-word index of MD5 round `i`. -/
def md5F (i b c d : Nat) : Nat × Nat :=
  if i < 16 then
    (Nat.lor (Nat.land b c) (Nat.land (w32not b) d), i)
  else if i < 32 then
    (Nat.lor (Nat.land d b) (Nat.land (w32not d) c), (5 * i + 1) % 16)
  else if i < 48 then
    (Nat.xor b (Nat.xor c d), (3 * i + 5) % 16)
  else
    (Nat.xor c (Nat.lor b (w32not d)), 7 * i % 16)

/-- One MD5 round over the 16 message words `M`. -/
def md5Round (M : List Nat) (st : Nat × Nat × Nat × Nat) (i : Nat) :
    Nat × Nat × Nat × Nat :=
  let a := st.1
  let b := st.2.1
  let c := st.2.2.1
  let d := st.2.2.2
  let fg := md5F i b c d
  let tmp := (a + fg.1 + md5K.getD i 0 + M.getD fg.2 0) % 4294967296
  (d, (b + rotl32 tmp (md5S.getD i 0)) % 4294967296, b, c)

/-- Read four bytes as a little-endian 32-bit word. -/
def leWord (l : List Nat) : Nat :=
  l.getD 0 0 + 256 * l.getD 1 0 + 65536 * l.getD 2 0 + 16777216 * l.getD 3 0

/-- Little-endian byte rendering of `n` on `k` bytes. -/
def leBytes : Nat → Nat → List Nat
  | _, 0 => []
  | n, k + 1 => n % 256 :: leBytes (n / 256) k

/-- Process one 64-byte block. -/
def md5Block (st : Nat × Nat × Nat × Nat) (block : List Nat) :
    Nat × Nat × Nat × Nat :=
  let M := (chunksOf 4 block).map leWord
  let r := (List.range 64).foldl (md5Round M) st
  ((st.1 + r.1) % 4294967296, (st.2.1 + r.2.1) % 4294967296,
   (st.2.2.1 + r.2.2.1) % 4294967296, (st.2.2.2 + r.2.2.2) % 4294967296)

/-- MD5 padding: a `0x80` byte, zeros up to 56 modulo 64, then the bit
length on eight little-endian bytes. -/
def md5Pad (msg : List Nat) : List Nat :=
  msg ++ 0x80 :: List.replicate ((56 + 64 - (msg.length + 1) % 64) % 64) 0
      ++ leBytes (msg.length * 8 % 2 ^ 64) 8

/-- The 16-byte MD5 digest of a byte list (`hashlib.md5(data).digest()`). -/
def md5 (msg : List Nat) : List Nat :=
  let st := (chunksOf 64 (md5Pad msg)).foldl md5Block
    (0x67452301, 0xefcdab89, 0x98badcfe, 0x10325476)
  leBytes st.1 4 ++ leBytes st.2.1 4 ++ leBytes st.2.2.1 4 ++ leBytes st.2.2.2 4

def hexDigit (n : Nat) : Char :=
  (String.toList "0123456789abcdef").getD n '0'

/-- Lowercase hex rendering of a byte list
(`hashlib.md5(data).hexdigest()` applied to its digest bytes). -/
def hexOfBytes (l : List Nat) : String :=
  String.mk (l.foldr (fun b acc => hexDigit (b / 16) :: hexDigit (b % 16) :: acc) [])

/-- Translation of `verify_etag` of `see/image_providers/helpers.py`: the file is read in
8 MiB chunks, the 16-byte MD5 digest of each chunk is written to `stream`,
and the remote tag is compared against the hex MD5 *of that digest stream* —
with the `-<count>` suffix when more than one chunk was read, without it
otherwise. -/
def verify_etag (data : List Nat) (etag : String) : Bool :=
  let cs := chunksOf 8388608 data
  let stream := (cs.map md5).flatten
  if cs.length > 1 then
    (hexOfBytes (md5 stream) ++ "-" ++ toString cs.length) == etag
  else hexOfBytes (md5 stream) == etag

/-- The ETag verification the specification describes, stated from its
words for comparison with `verify_etag`: "if chunk count > 1, the expected
tag is `<MD5-of-concatenated-chunk-digests>-<chunk-count>`; otherwise it is
`<MD5-of-file>`". -/
def verify_etag_spec (data : List Nat) (etag : String) : Bool :=
  let cs := chunksOf 8388608 data
  if cs.length > 1 then
    (hexOfBytes (md5 ((cs.map md5).flatten)) ++ "-" ++ toString cs.length) == etag
  else hexOfBytes (md5 data) == etag

/-! ## Dictionary lemmas -/

theorem dictGet_dictSet_self {β : Type} (m : List (String × β)) (k : String)
    (v : β) : dictGet (dictSet m k v) k = some v := by
  induction m with
  | nil => simp [dictSet, dictGet]
  | cons kv t ih =>
      obtain ⟨k1, v1⟩ := kv
      by_cases h : k1 = k
      · simp [dictSet, dictGet, h]
      · simp [dictSet, dictGet, h, ih]

theorem dictGet_dictSet_ne {β : Type} (m : List (String × β)) (k k2 : String)
    (v : β) (h : k2 ≠ k) : dictGet (dictSet m k v) k2 = dictGet m k2 := by
  have hk : k ≠ k2 := fun hh => h hh.symm
  induction m with
  | nil => simp [dictSet, dictGet, hk]
  | cons kv t ih =>
      obtain ⟨k1, v1⟩ := kv
      by_cases h1 : k1 = k
      · subst h1
        simp [dictSet, dictGet, hk]
      · by_cases h2 : k1 = k2 <;> simp [dictSet, dictGet, h1, h2, h, ih]

theorem dictGet_eq_none_iff {β : Type} (m : List (String × β)) (k : String) :
    dictGet m k = none ↔ k ∉ m.map Prod.fst := by
  induction m with
  | nil => simp [dictGet]
  | cons kv t ih =>
      obtain ⟨k1, v1⟩ := kv
      by_cases h : k1 = k
      · subst h
        simp [dictGet]
      · simp [dictGet, h, ih, Ne.symm h]

theorem dictGet_dict_update_not_mem (base upd : List (String × String))
    (k : String) (h : k ∉ upd.map Prod.fst) :
    dictGet (dict_update base upd) k = dictGet base k := by
  induction upd generalizing base with
  | nil => rfl
  | cons kv t ih =>
      obtain ⟨k1, v1⟩ := kv
      simp only [List.map_cons, List.mem_cons] at h
      push_neg at h
      have step : dict_update base ((k1, v1) :: t)
          = dict_update (dictSet base k1 v1) t := rfl
      rw [step, ih (dictSet base k1 v1) h.2,
        dictGet_dictSet_ne base k1 k v1 h.1]

theorem dictGet_dict_update_mem (base upd : List (String × String))
    (k : String) (v : String) (hnd : (upd.map Prod.fst).Nodup)
    (h : dictGet upd k = some v) :
    dictGet (dict_update base upd) k = some v := by
  induction upd generalizing base with
  | nil => simp [dictGet] at h
  | cons kv t ih =>
      obtain ⟨k1, v1⟩ := kv
      simp only [List.map_cons, List.nodup_cons] at hnd
      have step : dict_update base ((k1, v1) :: t)
          = dict_update (dictSet base k1 v1) t := rfl
      by_cases h1 : k1 = k
      · subst h1
        simp only [dictGet, if_pos, Option.some.injEq] at h
        rw [step, dictGet_dict_update_not_mem (dictSet base k1 v1) t k1 hnd.1,
          dictGet_dictSet_self, h]
      · simp only [dictGet, if_neg h1] at h
        rw [step, ih (dictSet base k1 v1) hnd.2 h]

/-! ## C1: hook configuration merge -/

/-- C1, counterexample: with shared configuration `{"k": "shared"}` and a
single hook entry whose configuration is `{"k": "entry"}`, the configuration
passed to the hook constructor binds `"k"` to the *shared* value, not the
entry-specific one — `config.update(shared)` lets the shared dictionary win
the collision. -/
theorem load_hooks_entry_loses_counterexample :
    (load_hooks ⟨[("k", "shared")], [⟨some "h", [("k", "entry")]⟩]⟩ "id" ()).map
        (fun p => dictGet p.2.configuration "k") = [some "shared"]
    ∧ some "shared" ≠ some "entry" := by decide

/-- C1, amended: for every hook entry, the constructor receives the entry
configuration updated with the shared configuration, and on a key collision
the *shared* value wins; keys absent from the shared configuration keep the
entry-specific binding. -/
theorem load_hooks_shared_wins (cfg : HookManagerConfig) (identifier : String)
    {Ctx : Type} (context : Ctx) (entry : HookEntry) (name k : String)
    (hmem : entry ∈ cfg.hooks) (hname : entry.name = some name)
    (hnd : (cfg.configuration.map Prod.fst).Nodup) :
    ((name, HookParameters.mk identifier
        (dict_update entry.configuration cfg.configuration) context)
      ∈ load_hooks cfg identifier context)
    ∧ (∀ v, dictGet cfg.configuration k = some v →
        dictGet (dict_update entry.configuration cfg.configuration) k = some v)
    ∧ (dictGet cfg.configuration k = none →
        dictGet (dict_update entry.configuration cfg.configuration) k
          = dictGet entry.configuration k) := by
  refine ⟨?_, ?_, ?_⟩
  · exact List.mem_filterMap.mpr ⟨entry, hmem, by rw [hname]⟩
  · intro v hv
    exact dictGet_dict_update_mem entry.configuration cfg.configuration k v hnd hv
  · intro hnone
    exact dictGet_dict_update_not_mem entry.configuration cfg.configuration k
      ((dictGet_eq_none_iff cfg.configuration k).mp hnone)

/-- C1, witness for `load_hooks_shared_wins` at the configuration of the
counterexample. -/
theorem load_hooks_shared_wins_witness :
    (("h", HookParameters.mk "id"
        (dict_update [("k", "entry")] [("k", "shared")]) ())
      ∈ load_hooks ⟨[("k", "shared")], [⟨some "h", [("k", "entry")]⟩]⟩ "id" ())
    ∧ dictGet (dict_update [("k", "entry")] [("k", "shared")]) "k"
        = some "shared" := by
  have H := load_hooks_shared_wins
    ⟨[("k", "shared")], [⟨some "h", [("k", "entry")]⟩]⟩ "id" ()
    ⟨some "h", [("k", "entry")]⟩ "h" "k" (by decide) rfl (by decide)
  exact ⟨H.1, H.2.1 "shared" (by decide)⟩

/-! ## C2: unsubscribe -/

theorem removeFirst_eq (x : Nat) (l : List Nat) :
    removeFirst x l = if x ∈ l then some (l.erase x) else none := by
  induction l with
  | nil => simp [removeFirst]
  | cons y t ih =>
      by_cases h : y = x
      · subst h
        simp [removeFirst, List.erase_cons]
      · by_cases h2 : x ∈ t <;>
          simp [removeFirst, List.erase_cons, h, Ne.symm h, h2, ih]

/-- C2, counterexample: a handler subscribed both synchronously and
asynchronously for the same event is removed from *both* lists by a single
`unsubscribe` (zero registrations remain), whereas the claim states that
exactly one registration is removed and one remains. -/
theorem unsubscribe_removes_both_counterexample :
    unsubscribe ⟨[("E", [7])], [("E", [7])]⟩ "E" 7
        = Except.ok ⟨[("E", [])], [("E", [])]⟩
    ∧ unsubscribe ⟨[("E", [7])], [("E", [7])]⟩ "E" 7
        ≠ Except.ok ⟨[("E", [7])], [("E", [])]⟩
    ∧ unsubscribe ⟨[("E", [7])], [("E", [7])]⟩ "E" 7
        ≠ Except.ok ⟨[("E", [])], [("E", [7])]⟩ := by decide

/-- C2, amended (matching the source docstring "Both synchronous and
asynchronous handlers are removed"): `unsubscribe` removes the first
matching synchronous entry and, when one was removed, *also* the first
matching asynchronous entry if present; when there is no synchronous entry
it removes the first matching asynchronous entry; when the handler is
registered in neither list it fails with the not-subscribed error and the
handler lists are returned unchanged inside the error result (the state is
not modified). -/
theorem unsubscribe_spec (st : Handlers) (event : String) (h : Nat) :
    unsubscribe st event h =
      if h ∈ dictGetD st.sync_handlers event then
        Except.ok
          { sync_handlers :=
              dictSet st.sync_handlers event
                ((dictGetD st.sync_handlers event).erase h),
            async_handlers :=
              if h ∈ dictGetD st.async_handlers event then
                dictSet st.async_handlers event
                  ((dictGetD st.async_handlers event).erase h)
              else st.async_handlers }
      else if h ∈ dictGetD st.async_handlers event then
        Except.ok { st with
          async_handlers :=
            dictSet st.async_handlers event
              ((dictGetD st.async_handlers event).erase h) }
      else Except.error ObsError.notSubscribed := by
  unfold unsubscribe
  simp only [removeFirst_eq]
  by_cases hs : h ∈ dictGetD st.sync_handlers event <;>
    by_cases ha : h ∈ dictGetD st.async_handlers event <;>
      simp [hs, ha]

/-! ## Dispatch lemmas -/

theorem dictGetD_dictSet_ne (m : List (String × List Nat)) (k k2 : String)
    (v : List Nat) (h : k2 ≠ k) : dictGetD (dictSet m k v) k2 = dictGetD m k2 := by
  unfold dictGetD
  rw [dictGet_dictSet_ne m k k2 v h]

theorem unsubscribe_sync_other (st : Handlers) (ev : String) (h : Nat)
    (name : String) (hs : Handlers) (hne : ev ≠ name)
    (hok : unsubscribe st ev h = Except.ok hs) :
    dictGetD hs.sync_handlers name = dictGetD st.sync_handlers name := by
  have hne2 : name ≠ ev := fun hh => hne hh.symm
  unfold unsubscribe at hok
  cases h1 : removeFirst h (dictGetD st.sync_handlers ev) <;> rw [h1] at hok <;>
    cases h2 : removeFirst h (dictGetD st.async_handlers ev) <;> rw [h2] at hok
  all_goals first
    | exact Except.noConfusion hok
    | (injection hok with hok2
       rw [← hok2]
       try simp [dictGetD_dictSet_ne _ _ _ _ hne2])

theorem runOps_sync_preserved (name : String) (ops : List BusOp) (st : Bus)
    (hops : (ops.all fun op => !opTouchesSync name op) = true) :
    dictGetD (runOps st ops).1.handlers.sync_handlers name
      = dictGetD st.handlers.sync_handlers name := by
  induction ops generalizing st with
  | nil => rfl
  | cons op rest ih =>
      simp only [List.all_cons, Bool.and_eq_true] at hops
      cases op with
      | sub ev h =>
          have hne : ev ≠ name := by
            have := hops.1
            simp only [opTouchesSync, Bool.not_eq_eq_eq_not, Bool.not_true,
              beq_eq_false_iff_ne] at this
            exact this
          rw [show runOps st (BusOp.sub ev h :: rest)
              = runOps { st with handlers := subscribe st.handlers ev h } rest
            from rfl, ih _ hops.2]
          simp [subscribe, dictGetD_dictSet_ne _ _ _ _ (fun hh => hne hh.symm)]
      | subAsync ev h =>
          rw [show runOps st (BusOp.subAsync ev h :: rest)
              = runOps { st with handlers := subscribe_async st.handlers ev h }
                rest from rfl, ih _ hops.2]
          rfl
      | unsub ev h =>
          have hne : ev ≠ name := by
            have := hops.1
            simp only [opTouchesSync, Bool.not_eq_eq_eq_not, Bool.not_true,
              beq_eq_false_iff_ne] at this
            exact this
          cases hu : unsubscribe st.handlers ev h with
          | ok hs =>
              rw [show runOps st (BusOp.unsub ev h :: rest)
                  = match unsubscribe st.handlers ev h with
                    | .ok hs => runOps { st with handlers := hs } rest
                    | .error _ => (st, true) from rfl, hu]
              rw [ih _ hops.2]
              exact unsubscribe_sync_other st.handlers ev h name hs hne hu
          | error e =>
              rw [show runOps st (BusOp.unsub ev h :: rest)
                  = match unsubscribe st.handlers ev h with
                    | .ok hs => runOps { st with handlers := hs } rest
                    | .error _ => (st, true) from rfl, hu]
      | setFlag f =>
          rw [show runOps st (BusOp.setFlag f :: rest)
              = runOps { st with flags := st.flags ++ [f] } rest from rfl,
            ih _ hops.2]

theorem syncLoop_no_touch (beh : Behavior) (e : Event) (l : List Nat)
    (hb : ∀ h, ((beh h e).1.all fun op => !opTouchesSync e.name op) = true) :
    ∀ (fuel : Nat) (st : Bus) (i : Nat) (acc : List Nat),
      dictGetD st.handlers.sync_handlers e.name = l →
      l.length ≤ i + fuel →
      (syncLoop beh e fuel st i acc).2 = acc ++ l.drop i := by
  intro fuel
  induction fuel with
  | zero =>
      intro st i acc hl hfuel
      rw [syncLoop, List.drop_eq_nil_of_le (by omega), List.append_nil]
  | succ n ih =>
      intro st i acc hl hfuel
      rw [syncLoop, hl]
      by_cases hlt : i < l.length
      · rw [List.getElem?_eq_getElem hlt]
        have hpres : dictGetD
            (synchronous beh l[i] e st).handlers.sync_handlers e.name = l := by
          unfold synchronous
          rw [runOps_sync_preserved e.name _ st (hb _), hl]
        show (syncLoop beh e n (synchronous beh l[i] e st) (i + 1)
            (acc ++ [l[i]])).2 = acc ++ l.drop i
        rw [ih _ _ _ hpres (by omega), List.drop_eq_getElem_cons hlt]
        simp
      · rw [List.getElem?_eq_none (by omega)]
        show acc = acc ++ l.drop i
        rw [List.drop_eq_nil_of_le (by omega), List.append_nil]

theorem syncLoop_ops_congr (beh beh2 : Behavior) (e : Event)
    (hsame : ∀ h ev, (beh2 h ev).1 = (beh h ev).1) :
    ∀ (fuel : Nat) (st : Bus) (i : Nat) (acc : List Nat),
      syncLoop beh2 e fuel st i acc = syncLoop beh e fuel st i acc := by
  intro fuel
  induction fuel with
  | zero => intro st i acc; rfl
  | succ n ih =>
      intro st i acc
      cases hx : (dictGetD st.handlers.sync_handlers e.name)[i]? with
      | none => rw [syncLoop, syncLoop, hx]
      | some hd =>
          rw [syncLoop, syncLoop, hx]
          show syncLoop beh2 e n (synchronous beh2 hd e st) (i + 1) (acc ++ [hd])
              = syncLoop beh e n (synchronous beh hd e st) (i + 1) (acc ++ [hd])
          have hsyn : synchronous beh2 hd e st = synchronous beh hd e st := by
            unfold synchronous
            rw [hsame]
          rw [hsyn, ih]

theorem flagOnly_no_touch (n : String) (ops : List BusOp)
    (h : flagOnly ops = true) :
    (ops.all fun op => !opTouchesSync n op) = true := by
  induction ops with
  | nil => rfl
  | cons op rest ih =>
      cases op with
      | setFlag f =>
          simp only [flagOnly, List.all_cons, Bool.true_and] at h
          simp only [List.all_cons, opTouchesSync, Bool.not_false, Bool.true_and]
          exact ih h
      | sub ev hh => simp [flagOnly] at h
      | subAsync ev hh => simp [flagOnly] at h
      | unsub ev hh => simp [flagOnly] at h

/-! ## C4: dispatch and in-flight mutation -/

/-- C4, counterexample: with handler 0 subscribed synchronously for event
`"e"` and a behaviour where handler 0 subscribes handler 1 for the same
event, `trigger` invokes *both* handlers — the live-list loop picks up the
handler appended during dispatch, so the dispatched set is not the snapshot
taken when the trigger began (which was `[0]`) and the mutation takes effect
on the in-flight trigger, not the next one. -/
theorem trigger_snapshot_counterexample :
    (trigger (fun h _ => if h = 0 then ([BusOp.sub "e" 1], false)
        else ([], false)) 3 ⟨⟨[("e", [0])], []⟩, []⟩ "S" (Sum.inl "e")
        []).invoked = [0, 1]
    ∧ (trigger (fun h _ => if h = 0 then ([BusOp.sub "e" 1], false)
        else ([], false)) 3 ⟨⟨[("e", [0])], []⟩, []⟩ "S" (Sum.inl "e")
        []).invoked ≠ [0] := by decide

/-- C4, amended: the asynchronous handlers scheduled by a trigger are the
asynchronous list of the event at the start of the call (all tasks are
started before any synchronous handler runs), and the synchronous handlers
invoked equal the start-of-call synchronous list *provided no handler
mutates that event's synchronous list during dispatch*; a subscribe or
unsubscribe targeting the dispatched event performed by a handler can affect
the in-flight trigger (see the counterexample), not only the next one. -/
theorem trigger_live_dispatch (st : Bus) (beh : Behavior)
    (source name : String) (kwargs : List (String × String)) (fuel : Nat)
    (hb : ∀ h, ((beh h (prime_event (Sum.inl name) source kwargs)).1.all
        fun op => !opTouchesSync name op) = true)
    (hfuel : (dictGetD st.handlers.sync_handlers name).length ≤ fuel) :
    (trigger beh fuel st source (Sum.inl name) kwargs).scheduled
        = dictGetD st.handlers.async_handlers name
    ∧ (trigger beh fuel st source (Sum.inl name) kwargs).invoked
        = dictGetD st.handlers.sync_handlers name := by
  refine ⟨rfl, ?_⟩
  show (syncLoop beh ⟨name, source, kwargs⟩ fuel st 0 []).2
      = dictGetD st.handlers.sync_handlers name
  have h2 := syncLoop_no_touch beh ⟨name, source, kwargs⟩
    (dictGetD st.handlers.sync_handlers name) hb fuel st 0 [] rfl (by omega)
  simpa using h2

/-- C4, witness for `trigger_live_dispatch`: two synchronous and one
asynchronous subscription, pure handlers. -/
theorem trigger_live_dispatch_witness :
    (trigger (fun _ _ => ([], false)) 2 ⟨⟨[("E", [3, 4])], [("E", [9])]⟩, []⟩
        "S" (Sum.inl "E") []).scheduled = [9]
    ∧ (trigger (fun _ _ => ([], false)) 2 ⟨⟨[("E", [3, 4])], [("E", [9])]⟩, []⟩
        "S" (Sum.inl "E") []).invoked = [3, 4] := by
  have H := trigger_live_dispatch ⟨⟨[("E", [3, 4])], [("E", [9])]⟩, []⟩
    (fun _ _ => ([], false)) "S" "E" [] 2 (fun _ => rfl) (by decide)
  exact ⟨H.1.trans (by decide), H.2.trans (by decide)⟩

/-! ## C8: handler failure isolation -/

/-- C8: a raising synchronous handler neither aborts the trigger nor
prevents the delivery to the handlers after it.  First conjunct: when the
subscribed handlers perform no subscription changes (they may raise!), every
subscribed handler is invoked, in registration order — the `raise` component
of the behaviours is unconstrained.  Second conjunct: the entire trigger
outcome is independent of which handlers raise — a behaviour differing only
in its raise component produces the identical result, because the
`synchronous` wrapper catches every handler exception. -/
theorem trigger_failure_isolation (st : Bus) (beh beh2 : Behavior)
    (source name : String) (kwargs : List (String × String)) (fuel : Nat)
    (hflag : ∀ h, flagOnly (beh h (prime_event (Sum.inl name) source
        kwargs)).1 = true)
    (hfuel : (dictGetD st.handlers.sync_handlers name).length ≤ fuel)
    (hops : ∀ h ev, (beh2 h ev).1 = (beh h ev).1) :
    (trigger beh fuel st source (Sum.inl name) kwargs).invoked
        = dictGetD st.handlers.sync_handlers name
    ∧ trigger beh2 fuel st source (Sum.inl name) kwargs
        = trigger beh fuel st source (Sum.inl name) kwargs := by
  constructor
  · show (syncLoop beh ⟨name, source, kwargs⟩ fuel st 0 []).2
        = dictGetD st.handlers.sync_handlers name
    have h2 := syncLoop_no_touch beh ⟨name, source, kwargs⟩
      (dictGetD st.handlers.sync_handlers name)
      (fun h => flagOnly_no_touch name _ (hflag h)) fuel st 0 [] rfl (by omega)
    simpa using h2
  · have hr := syncLoop_ops_congr beh beh2
      (prime_event (Sum.inl name) source kwargs) hops fuel st 0 []
    unfold trigger
    simp only [hr]

/-- C8, witness for `trigger_failure_isolation`: both subscribed handlers
raise; both are still invoked and the outcome equals the non-raising run. -/
theorem trigger_failure_isolation_witness :
    (trigger (fun _ _ => ([], true)) 2 ⟨⟨[("E", [0, 1])], []⟩, []⟩ "S"
        (Sum.inl "E") []).invoked = [0, 1]
    ∧ trigger (fun _ _ => ([], false)) 2 ⟨⟨[("E", [0, 1])], []⟩, []⟩ "S"
        (Sum.inl "E") []
      = trigger (fun _ _ => ([], true)) 2 ⟨⟨[("E", [0, 1])], []⟩, []⟩ "S"
        (Sum.inl "E") [] := by
  have H := trigger_failure_isolation ⟨⟨[("E", [0, 1])], []⟩, []⟩
    (fun _ _ => ([], true)) (fun _ _ => ([], false)) "S" "E" [] 2
    (fun _ => rfl) (by decide) (fun _ _ => rfl)
  exact ⟨H.1.trans (by decide), H.2⟩

/-! ## C10: triggering an already-constructed Event -/

/-- C10: when `trigger` receives an `Event` instance the event is delivered
exactly as given — its source tag is not replaced and the whole trigger
outcome is independent of the emitter name and of any extra keyword payload
(both are silently ignored); only a string argument builds a fresh `Event`
with the emitter's class name as source and the supplied payload. -/
theorem trigger_event_passthrough (st : Bus) (beh : Behavior) (fuel : Nat)
    (source source2 : String) (e : Event)
    (kwargs kwargs2 : List (String × String)) (name : String) :
    (trigger beh fuel st source (Sum.inr e) kwargs).event = e
    ∧ trigger beh fuel st source (Sum.inr e) kwargs
        = trigger beh fuel st source2 (Sum.inr e) kwargs2
    ∧ (trigger beh fuel st source (Sum.inl name) kwargs).event
        = ⟨name, source, kwargs⟩ :=
  ⟨rfl, rfl, rfl⟩

/-! ## C6: lifecycle verbs -/

theorem pre_ne_post (v : String) : ("pre_" ++ v) ≠ ("post_" ++ v) := by
  intro h
  have hlen := congrArg String.length h
  rw [String.length_append, String.length_append] at hlen
  have h4 : ("pre_" : String).length = 4 := rfl
  have h5 : ("post_" : String).length = 5 := rfl
  omega

/-- C6: for every lifecycle verb dispatched through `_command` — and for
`shutdown`, which inlines the same structure — a state not allowed by the
transition map yields the invalid-transition error with no event triggered
and no back-end call; when the state allows the verb, `pre_<verb>` is
triggered before the back-end call; a back-end failure surfaces as the
operation-failed error and `post_<verb>` is not triggered; `post_<verb>`
appears in the trace only when the back-end succeeded, after `pre_<verb>`,
with the same payload. -/
theorem command_lifecycle (verb : String) (st : DomState) (backendOk : Bool)
    (pl : List (String × String)) (obs : Nat → DomState) (t : Nat) :
    (assert_transition verb st = false →
      run_command verb st backendOk pl = ([], some CtxError.invalidTransition))
    ∧ (assert_transition verb st = true →
      (run_command verb st backendOk pl).1.take 2
        = [Step.ev ("pre_" ++ verb) pl, Step.backendCall])
    ∧ (assert_transition verb st = true → backendOk = false →
      (run_command verb st backendOk pl).2 = some CtxError.operationFailed
      ∧ Step.ev ("post_" ++ verb) pl ∉ (run_command verb st backendOk pl).1)
    ∧ (Step.ev ("post_" ++ verb) pl ∈ (run_command verb st backendOk pl).1 →
      backendOk = true ∧ (run_command verb st backendOk pl).2 = none
      ∧ (run_command verb st backendOk pl).1
          = [Step.ev ("pre_" ++ verb) pl, Step.backendCall,
             Step.ev ("post_" ++ verb) pl])
    ∧ (assert_transition "shutdown" (obs 0) = false →
      shutdown_with_timeout obs backendOk t pl
        = ([], some CtxError.invalidTransition))
    ∧ (assert_transition "shutdown" (obs 0) = true → backendOk = false →
      shutdown_with_timeout obs backendOk t pl
        = ([Step.ev "pre_shutdown" pl, Step.backendCall],
           some CtxError.operationFailed))
    ∧ (Step.ev "post_shutdown" pl ∈ (shutdown_with_timeout obs backendOk t pl).1 →
      backendOk = true ∧ (shutdown_with_timeout obs backendOk t pl).2 = none
      ∧ (shutdown_with_timeout obs backendOk t pl).1
          = [Step.ev "pre_shutdown" pl, Step.backendCall,
             Step.ev "post_shutdown" pl]) := by
  have hne := pre_ne_post verb
  have hnes : ("pre_shutdown" : String) ≠ "post_shutdown" := by decide
  refine ⟨?_, ?_, ?_, ?_, ?_, ?_, ?_⟩
  · intro ha
    simp [run_command, ha]
  · intro ha
    cases backendOk <;> simp [run_command, ha]
  · intro ha hb
    subst hb
    simp [run_command, ha, Step.ev.injEq, hne, Ne.symm hne]
  · intro hmem
    by_cases ha : assert_transition verb st
    · cases backendOk
      · simp [run_command, ha, Step.ev.injEq, hne, Ne.symm hne] at hmem
      · simp [run_command, ha]
    · simp [run_command, ha] at hmem
  · intro ha
    simp [shutdown_with_timeout, ha]
  · intro ha hb
    subst hb
    simp [shutdown_with_timeout, ha]
  · intro hmem
    by_cases ha : assert_transition "shutdown" (obs 0)
    · cases backendOk
      · simp [shutdown_with_timeout, ha, Step.ev.injEq, hnes, Ne.symm hnes] at hmem
      · by_cases hp : poll_shutoff obs (t * 10) 1
        · simp [shutdown_with_timeout, ha, hp]
        · simp [shutdown_with_timeout, ha, hp, Step.ev.injEq, hnes,
            Ne.symm hnes] at hmem
    · simp [shutdown_with_timeout, ha] at hmem

/-- C6, witness for `command_lifecycle`: `pause` from RUNNING with a
successful back-end. -/
theorem command_lifecycle_witness :
    (run_command "pause" DomState.running true []).1.take 2
      = [Step.ev "pre_pause" [], Step.backendCall]
    ∧ run_command "pause" DomState.shutoff true []
      = ([], some CtxError.invalidTransition)
    ∧ (run_command "poweroff" DomState.running false []).2
      = some CtxError.operationFailed := by
  have H1 := command_lifecycle "pause" DomState.running true []
    (fun _ => DomState.running) 0
  have H2 := command_lifecycle "pause" DomState.shutoff true []
    (fun _ => DomState.running) 0
  have H3 := command_lifecycle "poweroff" DomState.running false []
    (fun _ => DomState.running) 0
  exact ⟨H1.2.1 (by decide), H2.1 (by decide), (H3.2.2.1 (by decide) rfl).1⟩

/-! ## C5: shutdown with timeout -/

theorem poll_shutoff_iff (obs : Nat → DomState) :
    ∀ (fuel i : Nat), poll_shutoff obs fuel i = true
      ↔ ∃ j, i ≤ j ∧ j < i + fuel ∧ obs j = DomState.shutoff := by
  intro fuel
  induction fuel with
  | zero =>
      intro i
      simp only [poll_shutoff]
      constructor
      · intro h
        exact absurd h (by simp)
      · rintro ⟨j, h1, h2, _⟩
        omega
  | succ n ih =>
      intro i
      rw [poll_shutoff]
      by_cases h0 : obs i = DomState.shutoff
      · simp only [h0, if_pos rfl]
        constructor
        · intro _
          exact ⟨i, le_refl i, by omega, h0⟩
        · intro _
          rfl
      · rw [if_neg h0, ih (i + 1)]
        constructor
        · rintro ⟨j, h1, h2, h3⟩
          exact ⟨j, by omega, by omega, h3⟩
        · rintro ⟨j, h1, h2, h3⟩
          refine ⟨j, ?_, by omega, h3⟩
          rcases Nat.eq_or_lt_of_le h1 with heq | hlt
          · exact absurd (heq ▸ h3) h0
          · omega

/-- C5, counterexample: a domain that is already SHUTOFF does not make
`shutdown(timeout=0)` succeed — the transition check rejects `shutdown` from
the SHUTOFF state with the invalid-transition error and nothing is
triggered; and even when the check passes (domain RUNNING at the check) and
the domain is SHUTOFF at the very first poll instant, `timeout=0` runs zero
polls (`range(0)`) and the `for`/`else` clause raises the shutdown-timeout
error anyway, so `post_shutdown` is never emitted. -/
theorem shutdown_zero_timeout_counterexample :
    shutdown_with_timeout (fun _ => DomState.shutoff) true 0 []
        = ([], some CtxError.invalidTransition)
    ∧ shutdown_with_timeout
        (fun n => if n = 0 then DomState.running else DomState.shutoff) true 0 []
        = ([Step.ev "pre_shutdown" [], Step.backendCall],
           some CtxError.shutdownTimeout)
    ∧ (shutdown_with_timeout (fun _ => DomState.shutoff) true 0 []).2
        ≠ none := by decide

/-- C5, amended: a domain already SHUTOFF at the state check makes `shutdown`
fail invalid-transition (SHUTOFF does not allow the `shutdown` verb).  With
a non-null timeout `t`, from an allowed state with a successful back-end
call, the shutdown-timeout error is raised *iff* none of the `t * 10` polls
observes SHUTOFF — in particular with `timeout=0` there are no polls at all
and the call always fails shutdown-timeout, even if the domain is already
SHUTOFF. -/
theorem shutdown_timeout_behavior (obs : Nat → DomState) (backendOk : Bool)
    (t : Nat) (pl : List (String × String)) :
    (obs 0 = DomState.shutoff →
      shutdown_with_timeout obs backendOk t pl
        = ([], some CtxError.invalidTransition))
    ∧ (obs 0 = DomState.running → backendOk = true →
      ((shutdown_with_timeout obs backendOk t pl).2
          = some CtxError.shutdownTimeout
        ↔ ∀ j, 1 ≤ j → j ≤ t * 10 → obs j ≠ DomState.shutoff))
    ∧ (obs 0 = DomState.running → backendOk = true → t = 0 →
      (shutdown_with_timeout obs backendOk t pl).2
        = some CtxError.shutdownTimeout) := by
  have main : obs 0 = DomState.running → backendOk = true →
      ((shutdown_with_timeout obs backendOk t pl).2
          = some CtxError.shutdownTimeout
        ↔ ∀ j, 1 ≤ j → j ≤ t * 10 → obs j ≠ DomState.shutoff) := by
    intro h0 hb
    subst hb
    have ha : assert_transition "shutdown" (obs 0) = true := by
      rw [h0]
      decide
    by_cases hp : poll_shutoff obs (t * 10) 1
    · have := (poll_shutoff_iff obs (t * 10) 1).mp hp
      simp only [shutdown_with_timeout, ha, if_pos rfl, hp, if_true]
      constructor
      · intro hcontr
        simp at hcontr
      · intro hall
        obtain ⟨j, h1, h2, h3⟩ := this
        exact absurd h3 (hall j h1 (by omega))
    · simp only [shutdown_with_timeout, ha, if_pos rfl, hp, if_false]
      constructor
      · intro _ j hj1 hj2 hj3
        exact hp ((poll_shutoff_iff obs (t * 10) 1).mpr ⟨j, hj1, by omega, hj3⟩)
      · intro _
        rfl
  refine ⟨?_, main, ?_⟩
  · intro h0
    have ha : assert_transition "shutdown" (obs 0) = false := by
      rw [h0]
      decide
    simp [shutdown_with_timeout, ha]
  · intro h0 hb ht
    subst ht
    exact (main h0 hb).mpr (fun j hj1 hj2 => absurd hj2 (by omega))

/-- C5, witness for `shutdown_timeout_behavior`: domain stays RUNNING,
`timeout=1` raises shutdown-timeout. -/
theorem shutdown_timeout_behavior_witness :
    (shutdown_with_timeout (fun _ => DomState.running) true 1 []).2
      = some CtxError.shutdownTimeout := by
  have H := shutdown_timeout_behavior (fun _ => DomState.running) true 1 []
  exact (H.2.1 rfl rfl).mpr (fun j _ _ => by decide)

/-! ## C9: network creation retry cap -/

theorem createLoop_error_iff (ok : Nat → Bool) :
    ∀ (m i c : Nat), c + m = MAX_ATTEMPTS + 1 →
      (createLoop ok i c = Except.error NetError.addressExhausted
        ↔ ∀ j, j ≤ m → ok (i + j) = false) := by
  intro m
  induction m with
  | zero =>
      intro i c hc
      rw [createLoop]
      have hgt : c > MAX_ATTEMPTS := by omega
      by_cases h : ok i
      · rw [if_pos h]
        constructor
        · intro hcontr
          exact Except.noConfusion hcontr
        · intro hall
          have := hall 0 (le_refl 0)
          rw [Nat.add_zero] at this
          rw [this] at h
          exact Bool.noConfusion h
      · rw [if_neg h, if_pos hgt]
        constructor
        · intro _ j hj
          have hj0 : j = 0 := by omega
          subst hj0
          rw [Nat.add_zero]
          exact Bool.eq_false_iff.mpr h
        · intro _
          rfl
  | succ n ih =>
      intro i c hc
      rw [createLoop]
      by_cases h : ok i
      · rw [if_pos h]
        constructor
        · intro hcontr
          exact Except.noConfusion hcontr
        · intro hall
          have := hall 0 (by omega)
          rw [Nat.add_zero] at this
          rw [this] at h
          exact Bool.noConfusion h
      · have hle : ¬ c > MAX_ATTEMPTS := by omega
        rw [if_neg h, if_neg hle]
        rw [ih (i + 1) (c + 1) (by omega)]
        constructor
        · intro hall j hj
          rcases Nat.eq_zero_or_pos j with hj0 | hjpos
          · subst hj0
            rw [Nat.add_zero]
            exact Bool.eq_false_iff.mpr h
          · have := hall (j - 1) (by omega)
            have harith : i + 1 + (j - 1) = i + j := by omega
            rwa [harith] at this
        · intro hall j hj
          have := hall (j + 1) (by omega)
          have harith : i + (j + 1) = i + 1 + j := by omega
          rwa [harith] at this

theorem createLoop_ok_at (ok : Nat → Bool) :
    ∀ (k i c : Nat), c + k ≤ MAX_ATTEMPTS + 1 →
      (∀ j, j < k → ok (i + j) = false) → ok (i + k) = true →
      createLoop ok i c = Except.ok (i + k) := by
  intro k
  induction k with
  | zero =>
      intro i c _ _ hk
      rw [Nat.add_zero] at hk
      rw [createLoop, if_pos hk, Nat.add_zero]
  | succ n ih =>
      intro i c hc hprev hk
      have h0 : ok i = false := by
        have := hprev 0 (by omega)
        rwa [Nat.add_zero] at this
      have hle : ¬ c > MAX_ATTEMPTS := by omega
      have h0n : ¬ ok i = true := by simp [h0]
      rw [createLoop, if_neg h0n, if_neg hle]
      have hrec := ih (i + 1) (c + 1) (by omega)
        (fun j hj => by
          have := hprev (j + 1) (by omega)
          have harith : i + (j + 1) = i + 1 + j := by omega
          rwa [harith] at this)
        (by
          have harith : i + 1 + n = i + (n + 1) := by omega
          rwa [harith])
      rw [hrec]
      have harith : i + 1 + n = i + (n + 1) := by omega
      rw [harith]

/-- C9, counterexample: when the first `MAX_ATTEMPTS + 1 = 11` creation
attempts all fail in the libvirt race, `create` does *not* raise — it
performs a 12th attempt (index 11), which here succeeds.  The claim caps the
attempts at 10 and demands the address-exhausted failure as soon as the
failed attempts exceed that cap, both contradicted by this run. -/
theorem network_create_counterexample :
    network_create (fun i => decide (i = MAX_ATTEMPTS + 1))
        = Except.ok (MAX_ATTEMPTS + 1)
    ∧ MAX_ATTEMPTS + 1 + 1 > MAX_ATTEMPTS := by
  constructor
  · have H := createLoop_ok_at (fun i => decide (i = MAX_ATTEMPTS + 1))
      (MAX_ATTEMPTS + 1) 0 0 (by omega)
      (fun j hj => by simp [MAX_ATTEMPTS] at hj ⊢; omega)
      (by simp)
    simpa [network_create] using H
  · omega

/-- C9, amended: the retry loop raises address-exhausted only once the
zero-based failure counter *exceeds* `MAX_ATTEMPTS`, i.e. after
`MAX_ATTEMPTS + 2 = 12` consecutive failed attempts; equivalently, creation
succeeds at the first successful attempt among the first
`MAX_ATTEMPTS + 2` (indices `0 .. MAX_ATTEMPTS + 1`), and the error is
raised iff all of those fail.  Up to 12 creation attempts are performed, not
10. -/
theorem network_create_cap (ok : Nat → Bool) :
    (network_create ok = Except.error NetError.addressExhausted
      ↔ ∀ j, j ≤ MAX_ATTEMPTS + 1 → ok j = false)
    ∧ (∀ k, k ≤ MAX_ATTEMPTS + 1 → (∀ j, j < k → ok j = false) →
        ok k = true → network_create ok = Except.ok k) := by
  constructor
  · have H := createLoop_error_iff ok (MAX_ATTEMPTS + 1) 0 0 (by omega)
    simpa [network_create] using H
  · intro k hk hprev hok
    have H := createLoop_ok_at ok k 0 0 (by omega)
      (fun j hj => by simpa using hprev j hj) (by simpa using hok)
    simpa [network_create] using H

/-- C9, witness for `network_create_cap`: every attempt fails, the loop
raises address-exhausted. -/
theorem network_create_cap_witness :
    network_create (fun _ => false) = Except.error NetError.addressExhausted := by
  exact (network_create_cap (fun _ => false)).1.mpr (fun _ _ => rfl)

/-! ## C7: rollback on failed allocation -/

/-- C7: whenever an `allocate` step raises, the factory deallocates the
partially allocated resources and re-raises the original exception
unchanged.  First conjunct: the error surfaced is exactly the original one.
Second conjunct: the sequence of release actions attempted is independent of
which releases fail — a `None` handle is skipped by its guard and a failing
release never prevents the remaining ones.  Remaining conjuncts: the
attempted releases are exactly the acquired handles — the domain is released
iff it was created, the network iff it was created from the configuration,
the storage pool iff it was created for a clone, and the hypervisor
connection iff it was opened. -/
theorem qemu_factory_rollback {E : Type} (cfg : QCfg) (ok : AllocStep → Bool)
    (pf nf : Bool) (err : AllocStep → E) (relOk relOk2 : RelStep → Bool)
    (r : QRes) (s : AllocStep) (hfail : allocate cfg ok pf nf = (r, some s)) :
    (qemu_factory_call cfg ok pf nf err relOk).2 = Except.error (err s)
    ∧ (qemu_factory_call cfg ok pf nf err relOk).1.map Prod.fst
        = (qemu_factory_call cfg ok pf nf err relOk2).1.map Prod.fst
    ∧ (RelStep.domainRelease
        ∈ (qemu_factory_call cfg ok pf nf err relOk).1.map Prod.fst
       ↔ r.domain = true)
    ∧ (RelStep.networkRelease
        ∈ (qemu_factory_call cfg ok pf nf err relOk).1.map Prod.fst
       ↔ (r.network = true ∧ cfg.hasNetwork = true))
    ∧ (RelStep.poolRelease
        ∈ (qemu_factory_call cfg ok pf nf err relOk).1.map Prod.fst
       ↔ (r.storage_pool = true ∧ cfg.hasClone = true))
    ∧ (RelStep.hypervisorRelease
        ∈ (qemu_factory_call cfg ok pf nf err relOk).1.map Prod.fst
       ↔ r.hypervisor = true) := by
  have hcall : qemu_factory_call cfg ok pf nf err relOk
      = (deallocate cfg r relOk, Except.error (err s)) := by
    unfold qemu_factory_call
    rw [hfail]
  have hcall2 : qemu_factory_call cfg ok pf nf err relOk2
      = (deallocate cfg r relOk2, Except.error (err s)) := by
    unfold qemu_factory_call
    rw [hfail]
  rw [hcall, hcall2]
  obtain ⟨rh, rd, rn, rp⟩ := r
  obtain ⟨cn, cc⟩ := cfg
  cases rh <;> cases rd <;> cases rn <;> cases rp <;> cases cn <;> cases cc <;>
    simp [deallocate]

/-- C7, witness for `qemu_factory_rollback`: domain creation fails with
hypervisor, pool and network already acquired; all three are released, the
domain is not, and the original error is re-raised — identically whether the
releases succeed (`relOk` all true) or all fail (`relOk2` all false). -/
theorem qemu_factory_rollback_witness :
    (qemu_factory_call ⟨true, true⟩
        (fun st => decide (st ≠ AllocStep.domainCreate)) true true
        (fun st => st) (fun _ => true)).2
      = Except.error AllocStep.domainCreate
    ∧ (qemu_factory_call ⟨true, true⟩
        (fun st => decide (st ≠ AllocStep.domainCreate)) true true
        (fun st => st) (fun _ => true)).1.map Prod.fst
      = (qemu_factory_call ⟨true, true⟩
        (fun st => decide (st ≠ AllocStep.domainCreate)) true true
        (fun st => st) (fun _ => false)).1.map Prod.fst
    ∧ ¬ (RelStep.domainRelease
        ∈ (qemu_factory_call ⟨true, true⟩
            (fun st => decide (st ≠ AllocStep.domainCreate)) true true
            (fun st => st) (fun _ => true)).1.map Prod.fst)
    ∧ (RelStep.networkRelease
        ∈ (qemu_factory_call ⟨true, true⟩
            (fun st => decide (st ≠ AllocStep.domainCreate)) true true
            (fun st => st) (fun _ => true)).1.map Prod.fst)
    ∧ (RelStep.hypervisorRelease
        ∈ (qemu_factory_call ⟨true, true⟩
            (fun st => decide (st ≠ AllocStep.domainCreate)) true true
            (fun st => st) (fun _ => true)).1.map Prod.fst) := by
  have H := qemu_factory_rollback ⟨true, true⟩
    (fun st => decide (st ≠ AllocStep.domainCreate)) true true
    (fun st => st) (fun _ => true) (fun _ => false)
    ⟨true, false, true, true⟩ AllocStep.domainCreate (by decide)
  refine ⟨H.1, H.2.1, ?_, ?_, ?_⟩
  · intro hmem
    exact Bool.noConfusion (H.2.2.1.mp hmem)
  · exact H.2.2.2.1.mpr ⟨rfl, rfl⟩
  · exact H.2.2.2.2.2.mpr rfl

/-! ## C3: single-chunk ETag verification -/

set_option maxRecDepth 1000000

/-- C3 (code bug): for the three-byte file `b"abc"` — a single 8 MiB chunk —
the genuine single-part S3 ETag is the plain MD5 of the file,
`900150983cd24fb0d6963f7d28e17f72`, yet `verify_etag` rejects it: in the
one-chunk branch the source hashes the *digest stream* (the 16 digest bytes
of the single chunk) instead of the file bytes, so it accepts only the
double MD5 `md5(md5(file).digest())`.  The specification's verification
(`verify_etag_spec`, stated from its words) accepts the plain MD5.  The
multi-chunk `<hash>-<count>` branch is unaffected. -/
theorem verify_etag_single_chunk_bug :
    chunksOf 8388608 [97, 98, 99] = [[97, 98, 99]]
    ∧ hexOfBytes (md5 [97, 98, 99]) = "900150983cd24fb0d6963f7d28e17f72"
    ∧ verify_etag [97, 98, 99] "900150983cd24fb0d6963f7d28e17f72" = false
    ∧ verify_etag_spec [97, 98, 99] "900150983cd24fb0d6963f7d28e17f72" = true
    ∧ verify_etag [97, 98, 99] (hexOfBytes (md5 (md5 [97, 98, 99]))) = true := by
  refine ⟨by decide, by decide, by decide, by decide, by decide⟩

end See
